import Mathlib

/-! The clc_exec provisioner: configuration resolution, validation and the Apply workflow.

A shallow embedding of `resource_provisioner.go`.

* Go maps `map[string]T` are association lists read with `mapGet` (first entry for a
  key) and written with `mapSet` (which drops every older entry for the key).
* `os.Getenv` is a function `Env` from variable names to values, `""` when unset.
* The calls into the CLC SDK are the fields of `Sdk`; what the SDK answers is an input
  of a run.
* `mapstructure` and the host's `config.Validator` are libraries the provisioner calls;
  their source is not part of the repository. What the provisioner relies on is written
  out below after the libraries themselves (`Decode`, `validatorValidate`); the pieces
  that differ between releases or that need Unicode tables are the fields of `Lib`.
* Logging (`log.Print`, `pretty.Log`) has no effect on results and is left out.
-/

namespace ClcExec

/-! ## Values and maps -/

/-- Configuration values as the host hands them over in `map[string]interface{}`:
strings, ints, bools, slices and string-keyed maps, the kinds the host's
`flatmap.Flatten` accepts. Floating-point numbers are left out. -/
inductive Value where
  | str (s : String)
  | int (i : Int)
  | bool (b : Bool)
  | slice (xs : List Value)
  | map (kvs : List (String × Value))

/-- Reading `m[k]`: the first entry stored under `k`, if any. -/
def mapGet {β : Type} : List (String × β) → String → Option β
  | [], _ => none
  | (k', v) :: rest, k => if k' = k then some v else mapGet rest k

/-- Writing `m[k] = v`: any older entry for `k` is replaced. -/
def mapSet {β : Type} (m : List (String × β)) (k : String) (v : β) : List (String × β) :=
  (k, v) :: m.filter (fun kv => !decide (kv.1 = k))

/-- The loop `for k, v := range src { dst[k] = v }`. -/
def mapCopyInto {β : Type} (src dst : List (String × β)) : List (String × β) :=
  src.foldr (fun kv acc => mapSet acc kv.1 kv.2) dst

/-- The keys of a map. -/
def mapKeys {β : Type} (m : List (String × β)) : List String :=
  m.map Prod.fst

/-- The process environment as seen through `os.Getenv`: `""` for an unset variable. -/
abbrev Env := String → String

/-- The two maps of `terraform.ResourceConfig` the provisioner reads and writes. -/
structure ResourceConfig where
  Raw : List (String × Value)
  Config : List (String × Value)

/-- The part of `terraform.InstanceState` the provisioner reads. -/
structure InstanceState where
  ID : String

/-- The struct `Provisioner`, with its `mapstructure` tags `username`, `password`,
`account`, `package` and `parameters`. -/
structure Provisioner where
  Username : String
  Password : String
  Account : String
  Package : String
  PackageParameters : List (String × String)
deriving DecidableEq, Repr

/-- Library behaviour the provisioner does not pin down. -/
structure Lib where
  /-- Go's `strings.EqualFold`, used by the decoder when no key matches a tag exactly. -/
  EqualFold : String → String → Bool
  /-- What the decoder makes of a slice where a `map[string]string` is expected
  (`none`: a decode error). -/
  decodeMapFromSlice : List Value → Option (List (String × String))
  /-- Warnings and errors of the host validator other than the required-key errors:
  the optional `parameters.*` key and the unknown-key check. -/
  validateOther : List (String × Value) → List String × List String

/-! ## getEnv -/

/-- The table `envVars` of `getEnv`: environment variable, configuration key. -/
def envVars : List (String × String) :=
  [("CLC_USERNAME", "username"), ("CLC_PASSWORD", "password"), ("CLC_ACCOUNT", "account")]

/-- One iteration of the loop of `getEnv`. -/
def getEnvStep (env : Env) (c : ResourceConfig) (pair : String × String) : ResourceConfig :=
  if env pair.1 ≠ "" then
    { Raw := mapSet c.Raw pair.2 (Value.str (env pair.1)),
      Config := mapSet c.Config pair.2 (Value.str (env pair.1)) }
  else c

/-- The function `getEnv`: returns the configuration as `getEnv` leaves it. -/
def getEnv (env : Env) (c : ResourceConfig) : ResourceConfig :=
  envVars.foldl (getEnvStep env) c

/-! ## mapstructure, with `ErrorUnused: true` and `WeaklyTypedInput: true` -/

/-- One line of a `mapstructure.Error`. -/
inductive DecodeIssue where
  | unconvertible (field : String)
  | expectedMap (field : String)
  | invalidKeys (keys : List String)
deriving DecidableEq, Repr

/-- The library's `decodeString` with weakly typed input: a string is taken as it is,
a bool becomes `"1"` or `"0"`, an int its decimal form; a slice of values or a map is
an error (`none`). -/
def decodeString : Value → Option String
  | Value.str s => some s
  | Value.bool b => some (if b then "1" else "0")
  | Value.int i => some (toString i)
  | Value.slice _ => none
  | Value.map _ => none

/-- The loop of the library's `decodeMap` over the entries of a map, for the result
type `map[string]string`: every value is decoded as a string; an entry that fails adds
an error and is skipped. -/
def decodeMapEntries (name : String) :
    List (String × Value) → List (String × String) × List DecodeIssue
  | [] => ([], [])
  | (k, v) :: rest =>
    match decodeString v with
    | some s => (mapSet (decodeMapEntries name rest).1 k s, (decodeMapEntries name rest).2)
    | none =>
      ((decodeMapEntries name rest).1,
        DecodeIssue.unconvertible (name ++ "[" ++ k ++ "]") :: (decodeMapEntries name rest).2)

/-- The library's `decodeMap` for a `map[string]string` field: a map is decoded
entry by entry, a slice as the release in use does, anything else is an error. -/
def decodeMap (lib : Lib) (name : String) : Value → List (String × String) × List DecodeIssue
  | Value.map kvs => decodeMapEntries name kvs
  | Value.slice xs =>
    match lib.decodeMapFromSlice xs with
    | some m => (m, [])
    | none => ([], [DecodeIssue.expectedMap name])
  | _ => ([], [DecodeIssue.expectedMap name])

/-- The map entry the library's `decodeStructFromMap` fills a struct field from: the
entry whose key is the tag, else an entry whose key equals the tag up to case folding
(`strings.EqualFold`), else none; the field is then left alone, without an error. Of
several entries that match up to case Go takes an arbitrary one, here the first. -/
def findField (lib : Lib) (m : List (String × Value)) (tag : String) :
    Option (String × Value) :=
  match m.find? (fun kv => decide (kv.1 = tag)) with
  | some kv => some kv
  | none => m.find? (fun kv => lib.EqualFold kv.1 tag)

/-- Filling a `string` field: the zero value `""` when no entry matches or when the
value cannot be converted. -/
def decodeStringField (tag : String) : Option (String × Value) → String × List DecodeIssue
  | none => ("", [])
  | some kv =>
    match decodeString kv.2 with
    | some s => (s, [])
    | none => ("", [DecodeIssue.unconvertible tag])

/-- Filling the `map[string]string` field. -/
def decodeMapField (lib : Lib) (tag : String) :
    Option (String × Value) → List (String × String) × List DecodeIssue
  | none => ([], [])
  | some kv => decodeMap lib tag kv.2

/-- The keys of the input that filled a field. -/
def usedKeys (hits : List (Option (String × Value))) : List String :=
  hits.filterMap (fun h => h.map Prod.fst)

/-- The keys of the input that filled no field of the struct. -/
def unusedKeys (lib : Lib) (m : List (String × Value)) : List String :=
  (mapKeys m).filter (fun k => decide (k ∉ usedKeys
    [findField lib m "username", findField lib m "password", findField lib m "account",
      findField lib m "package", findField lib m "parameters"]))

/-- The errors a decode collects: those of the five fields, then, since `ErrorUnused`
is set, one for the keys that filled no field. -/
def decodeErrors (lib : Lib) (m : List (String × Value)) : List DecodeIssue :=
  (decodeStringField "username" (findField lib m "username")).2 ++
  (decodeStringField "password" (findField lib m "password")).2 ++
  (decodeStringField "account" (findField lib m "account")).2 ++
  (decodeStringField "package" (findField lib m "package")).2 ++
  (decodeMapField lib "parameters" (findField lib m "parameters")).2 ++
  (if (unusedKeys lib m).isEmpty then [] else [DecodeIssue.invalidKeys (unusedKeys lib m)])

/-- The struct as a decode fills it, starting from the zero `Provisioner`. -/
def decodeFields (lib : Lib) (m : List (String × Value)) : Provisioner :=
  { Username := (decodeStringField "username" (findField lib m "username")).1,
    Password := (decodeStringField "password" (findField lib m "password")).1,
    Account := (decodeStringField "account" (findField lib m "account")).1,
    Package := (decodeStringField "package" (findField lib m "package")).1,
    PackageParameters := (decodeMapField lib "parameters" (findField lib m "parameters")).1 }

/-- The method `Decode` of a decoder built with `ErrorUnused: true`,
`WeaklyTypedInput: true` and a `*Provisioner` as result: an error when any was
collected. -/
def Decode (lib : Lib) (m : List (String × Value)) : Except (List DecodeIssue) Provisioner :=
  if (decodeErrors lib m).isEmpty then Except.ok (decodeFields lib m)
  else Except.error (decodeErrors lib m)

/-- The map `m` that `decodeConfig` builds: the raw entries, overlaid by the typed
entries. -/
def mergedMap (c : ResourceConfig) : List (String × Value) :=
  mapCopyInto c.Config (mapCopyInto c.Raw [])

/-- The method `decodeConfig`. `mapstructure.NewDecoder` fails only when the result is
not a pointer, which it is here. -/
def decodeConfig (lib : Lib) (env : Env) (c : ResourceConfig) :
    Except (List DecodeIssue) Provisioner :=
  Decode lib (mergedMap (getEnv env c))

/-! ## Validate -/

/-- The `Required` keys of the validator built in `Validate`. -/
def requiredKeys : List String := ["username", "password", "account", "package"]

/-- Whether the flattened raw configuration has the key `k`, for a key without a dot:
flattening stores a string, int or bool under its own key, and the parts of a slice
or map under `k.` followed by more, so `k` itself is a flattened key exactly when the
raw map holds a string, int or bool under `k`. -/
def flatHasKey (raw : List (String × Value)) (k : String) : Bool :=
  match mapGet raw k with
  | some (Value.str _) => true
  | some (Value.int _) => true
  | some (Value.bool _) => true
  | _ => false

/-- The errors of the validator for its required keys: `Key not found` for each one
that the flattened raw configuration lacks. -/
def requiredErrors (raw : List (String × Value)) : List String :=
  (requiredKeys.filter (fun k => !flatHasKey raw k)).map (fun k => "Key not found: " ++ k)

/-- The method `Validate` of the host's `config.Validator` with the keys set in
`Validate`: warnings and errors (as their messages). It flattens and inspects `c.Raw`
only; the order of the messages is not fixed in Go. -/
def validatorValidate (lib : Lib) (c : ResourceConfig) : List String × List String :=
  ((lib.validateOther c.Raw).1, requiredErrors c.Raw ++ (lib.validateOther c.Raw).2)

/-- The method `Validate`: warnings and errors. -/
def Validate (lib : Lib) (env : Env) (c : ResourceConfig) : List String × List String :=
  if (validatorValidate lib c).1.length > 0 ∨ (validatorValidate lib c).2.length > 0 then
    validatorValidate lib (getEnv env c)
  else ([], [])

/-! ## The SDK and Apply -/

/-- The value `api.NewConfig` returns. -/
structure ApiConfig where
  User : String
  Password : String
  Alias : String
  BaseURL : String
deriving DecidableEq, Repr

/-- The struct `server.Package`. -/
structure Package where
  ID : String
  Params : List (String × String)
deriving DecidableEq, Repr

/-- One entry of the answer of `ExecutePackage`: the queued flag and the status link,
if the entry has one. -/
structure PackageResponse where
  IsQueued : Bool
  statusLink : Option String
deriving DecidableEq, Repr

/-- The method `GetStatusID` of a response entry. -/
def GetStatusID (r : PackageResponse) : Bool × String :=
  match r.statusLink with
  | some id => (true, id)
  | none => (false, "")

/-- The status a poll delivers: its `Status` value and what `Failed()` answers. -/
structure StatusResponse where
  Status : String
  Failed : Bool
deriving DecidableEq, Repr

/-- The answers of the CLC SDK during one run. An error is its message; `none` is a
nil error. `Poll` either fails to register (an error) or puts one terminal status on
the channel. `fmtResp` is how `%v` prints the response slice. -/
structure Sdk where
  NewConfig : String → String → String → String → Except String ApiConfig
  Authenticate : ApiConfig → Option String
  ExecutePackage : ApiConfig → Package → String → List PackageResponse × Option String
  Poll : ApiConfig → String → Except String StatusResponse
  fmtResp : List PackageResponse → String

/-- The SDK calls a run makes, in order. -/
inductive Call where
  | NewConfig
  | Authenticate
  | ExecutePackage
  | Poll
deriving DecidableEq, Repr

/-- A Go `error` returned by `Apply`: the decoder's error handed on unchanged, or one
built with `fmt.Errorf`. -/
inductive GoError where
  | decode (issues : List DecodeIssue)
  | errorf (msg : String)
deriving DecidableEq, Repr

/-- How a call of `Apply` ends: a nil error, an error, or the run-time failure of
indexing an empty slice. -/
inductive Outcome where
  | ok
  | err (e : GoError)
  | indexOutOfRange
deriving DecidableEq, Repr

/-- What a run of `Apply` leaves behind: how it ended, the strings given to
`o.Output` and the SDK calls made, both in order. -/
structure Run where
  result : Outcome
  output : List String
  calls : List Call
deriving DecidableEq, Repr

/-- The first string `Apply` gives to `o.Output`. -/
def executingMsg (pkg server_id : String) : String :=
  "Executing package '" ++ pkg ++ "' on server '" ++ server_id ++ "'"

/-- The last string `Apply` gives to `o.Output`. -/
def successMsg (pkg server_id : String) : String :=
  "Package " ++ pkg ++ " successfully executed on " ++ server_id

/-- The message of the error `waitStatus` builds for a failed job. -/
def failedJobMsg (id status : String) : String :=
  "unsuccessful job " ++ id ++ " failed with status: " ++ status

/-- The function `waitStatus`: `none` is a nil error. -/
def waitStatus (sdk : Sdk) (client : ApiConfig) (id : String) : Option GoError :=
  match sdk.Poll client id with
  | Except.error _ => none
  | Except.ok status =>
    if status.Failed then some (GoError.errorf (failedJobMsg id status.Status)) else none

/-- The method `Apply`. -/
def Apply (lib : Lib) (sdk : Sdk) (env : Env) (s : InstanceState) (c : ResourceConfig) : Run :=
  match decodeConfig lib env c with
  | Except.error e => { result := Outcome.err (GoError.decode e), output := [], calls := [] }
  | Except.ok p =>
    let server_id := s.ID
    let out := [executingMsg p.Package server_id]
    match sdk.NewConfig p.Username p.Password p.Account "" with
    | Except.error e =>
      { result := Outcome.err (GoError.errorf
          ("Failed to create CLC config with provided details: " ++ e)),
        output := out, calls := [Call.NewConfig] }
    | Except.ok config =>
      match sdk.Authenticate config with
      | some e =>
        { result := Outcome.err (GoError.errorf
            ("Failed authenticated with provided credentials: " ++ e)),
          output := out, calls := [Call.NewConfig, Call.Authenticate] }
      | none =>
        let package_exec_spec : Package := { ID := p.Package, Params := p.PackageParameters }
        let calls3 := [Call.NewConfig, Call.Authenticate, Call.ExecutePackage]
        match sdk.ExecutePackage config package_exec_spec server_id with
        | (_, some e) =>
          { result := Outcome.err (GoError.errorf ("Failed executing package: " ++ e)),
            output := out, calls := calls3 }
        | ([], none) => { result := Outcome.indexOutOfRange, output := out, calls := calls3 }
        | (r :: rest, none) =>
          if !r.IsQueued then
            { result := Outcome.err (GoError.errorf "Failed executing package: <nil>"),
              output := out, calls := calls3 }
          else
            match GetStatusID r with
            | (false, _) =>
              { result := Outcome.err (GoError.errorf
                  ("Failed extracting status to poll on " ++ sdk.fmtResp (r :: rest) ++
                    ": <nil>")),
                output := out, calls := calls3 }
            | (true, st) =>
              match waitStatus sdk config st with
              | some e =>
                { result := Outcome.err e, output := out, calls := calls3 ++ [Call.Poll] }
              | none =>
                { result := Outcome.ok,
                  output := out ++ [successMsg p.Package server_id],
                  calls := calls3 ++ [Call.Poll] }

/-- A message mentions a text when the text occurs in it as a contiguous piece. -/
def Mentions (msg part : String) : Prop :=
  part.data <:+: msg.data

instance (msg part : String) : Decidable (Mentions msg part) :=
  inferInstanceAs (Decidable (part.data <:+: msg.data))

/-! ## Names used in the statements, and sample inputs -/

/-- The `mapstructure` tags of the fields of `Provisioner`. -/
def fieldTags : List String := ["username", "password", "account", "package", "parameters"]

/-- The string field of a `Provisioner` that carries the tag `key`. -/
def stringField (key : String) (p : Provisioner) : String :=
  if key = "username" then p.Username
  else if key = "password" then p.Password
  else if key = "account" then p.Account
  else if key = "package" then p.Package
  else ""

/-- Case folding over the ASCII letters; `strings.EqualFold` agrees with it on ASCII
text. -/
def asciiEqualFold (a b : String) : Bool :=
  a.data.map Char.toLower == b.data.map Char.toLower

/-- Library behaviour for the sample runs: ASCII case folding, an empty slice read as
an empty map and any other slice refused, no further findings of the validator. -/
def sampleLib : Lib :=
  { EqualFold := asciiEqualFold,
    decodeMapFromSlice := fun xs => match xs with
      | [] => some []
      | _ => none,
    validateOther := fun _ => ([], []) }

/-- An environment with none of the variables set. -/
def noEnv : Env := fun _ => ""

/-- An environment with only `CLC_USERNAME` set, to `foo`. -/
def envFoo : Env := fun name => if name = "CLC_USERNAME" then "foo" else ""

/-- The entries of the scenario configuration. -/
def fullEntries : List (String × Value) :=
  [("username", Value.str "u"), ("password", Value.str "p"), ("account", Value.str "a"),
    ("package", Value.str "PKG1"), ("parameters", Value.map [("foo", Value.str "bar")])]

/-- The scenario configuration: all four required fields and one parameter. -/
def cfgFull : ResourceConfig := { Raw := fullEntries, Config := fullEntries }

/-- A configuration without a username. -/
def cfgNoUser : ResourceConfig :=
  { Raw := [("password", Value.str "p"), ("account", Value.str "a"),
      ("package", Value.str "PKG1")],
    Config := [("password", Value.str "p"), ("account", Value.str "a"),
      ("package", Value.str "PKG1")] }

/-- A configuration without a package. -/
def cfgNoPackage : ResourceConfig :=
  { Raw := [("username", Value.str "u"), ("password", Value.str "p"),
      ("account", Value.str "a")],
    Config := [("username", Value.str "u"), ("password", Value.str "p"),
      ("account", Value.str "a")] }

/-- A configuration that spells the username key with a capital letter. -/
def cfgCapital : ResourceConfig :=
  { Raw := [("Username", Value.str "u"), ("password", Value.str "p"),
      ("account", Value.str "a"), ("package", Value.str "PKG1")],
    Config := [("Username", Value.str "u"), ("password", Value.str "p"),
      ("account", Value.str "a"), ("package", Value.str "PKG1")] }

/-- A configuration with a key no field carries. -/
def cfgExtra : ResourceConfig :=
  { Raw := fullEntries ++ [("region", Value.str "GB3")],
    Config := fullEntries ++ [("region", Value.str "GB3")] }

/-- The empty configuration. -/
def cfgEmpty : ResourceConfig := { Raw := [], Config := [] }

/-- The target of the scenario. -/
def srv1 : InstanceState := { ID := "srv-1" }

/-- The fake client of the scenario: every call succeeds, the package is queued under
status `job-42`, and the poll delivers `succeeded`. -/
def sdkOk : Sdk :=
  { NewConfig := fun u p a b => Except.ok { User := u, Password := p, Alias := a, BaseURL := b },
    Authenticate := fun _ => none,
    ExecutePackage := fun _ _ _ => ([{ IsQueued := true, statusLink := some "job-42" }], none),
    Poll := fun _ _ => Except.ok { Status := "succeeded", Failed := false },
    fmtResp := fun _ => "[resp]" }

/-- As `sdkOk`, but the poll delivers a failed status. -/
def sdkJobFailed : Sdk :=
  { sdkOk with Poll := fun _ _ => Except.ok { Status := "failed", Failed := true } }

/-- As `sdkOk`, but registering the poll fails. -/
def sdkPollError : Sdk :=
  { sdkOk with Poll := fun _ _ => Except.error "status service unavailable" }

/-- As `sdkOk`, but authentication fails. -/
def sdkAuthFails : Sdk :=
  { sdkOk with Authenticate := fun _ => some "401 Unauthorized" }

/-- As `sdkOk`, but the package is not queued. -/
def sdkNotQueued : Sdk :=
  { sdkOk with
    ExecutePackage := fun _ _ _ => ([{ IsQueued := false, statusLink := none }], none) }

/-- As `sdkOk`, but `ExecutePackage` answers with an empty slice and a nil error. -/
def sdkEmptyResponse : Sdk :=
  { sdkOk with ExecutePackage := fun _ _ _ => ([], none) }

/-- As `sdkOk`, but `ExecutePackage` answers with an empty slice and an error. -/
def sdkEmptyResponseError : Sdk :=
  { sdkOk with ExecutePackage := fun _ _ _ => ([], some "500 Internal Server Error") }

end ClcExec
namespace ClcExec

theorem mapGet_filter_ne {β : Type} (m : List (String × β)) (k k' : String) (h : k' ≠ k) :
    mapGet (m.filter (fun kv => !decide (kv.1 = k))) k' = mapGet m k' := by
  induction m with
  | nil => rfl
  | cons kv rest ih =>
    obtain ⟨a, b⟩ := kv
    by_cases hak : a = k
    · subst hak
      have : a ≠ k' := fun e => h e.symm
      simp [List.filter, mapGet, ih, this]
    · simp [List.filter, mapGet, ih, hak]

theorem mapGet_mapSet_self {β : Type} (m : List (String × β)) (k : String) (v : β) :
    mapGet (mapSet m k v) k = some v := by
  simp [mapSet, mapGet]

theorem mapGet_mapSet_ne {β : Type} (m : List (String × β)) (k k' : String) (v : β)
    (h : k' ≠ k) : mapGet (mapSet m k v) k' = mapGet m k' := by
  have hk : k ≠ k' := fun e => h e.symm
  simp [mapSet, mapGet, hk, mapGet_filter_ne m k k' h]

theorem mapGet_mapCopyInto_hit {β : Type} (src dst : List (String × β)) (k : String) (v : β)
    (h : mapGet src k = some v) : mapGet (mapCopyInto src dst) k = some v := by
  induction src with
  | nil => simp [mapGet] at h
  | cons kv rest ih =>
    obtain ⟨a, b⟩ := kv
    by_cases hak : a = k
    · subst hak
      simp [mapGet] at h
      subst h
      exact mapGet_mapSet_self _ _ _
    · simp [mapGet, hak] at h
      have hka : k ≠ a := fun e => hak e.symm
      show mapGet (mapSet (mapCopyInto rest dst) a b) k = some v
      rw [mapGet_mapSet_ne _ _ _ _ hka]
      exact ih h

theorem mapGet_mapCopyInto_miss {β : Type} (src dst : List (String × β)) (k : String)
    (h : mapGet src k = none) : mapGet (mapCopyInto src dst) k = mapGet dst k := by
  induction src with
  | nil => rfl
  | cons kv rest ih =>
    obtain ⟨a, b⟩ := kv
    by_cases hak : a = k
    · simp [mapGet, hak] at h
    · simp [mapGet, hak] at h
      have hka : k ≠ a := fun e => hak e.symm
      show mapGet (mapSet (mapCopyInto rest dst) a b) k = mapGet dst k
      rw [mapGet_mapSet_ne _ _ _ _ hka]
      exact ih h

theorem mapGet_eq_none_iff {β : Type} (m : List (String × β)) (k : String) :
    mapGet m k = none ↔ k ∉ mapKeys m := by
  induction m with
  | nil => simp [mapGet, mapKeys]
  | cons kv rest ih =>
    obtain ⟨a, b⟩ := kv
    by_cases hak : a = k
    · simp [mapGet, mapKeys, hak]
    · have hka : ¬ k = a := fun e => hak e.symm
      simp only [mapKeys] at ih
      simp [mapGet, mapKeys, hak, hka, ih]

theorem find_exact_of_mapGet (m : List (String × Value)) (k : String) (v : Value)
    (h : mapGet m k = some v) :
    m.find? (fun kv => decide (kv.1 = k)) = some (k, v) := by
  induction m with
  | nil => simp [mapGet] at h
  | cons kv rest ih =>
    obtain ⟨a, b⟩ := kv
    by_cases hak : a = k
    · simp [mapGet, hak] at h
      simp [List.find?, hak, h]
    · simp [mapGet, hak] at h
      simp [List.find?, hak, ih h]

theorem find_exact_none_of_mapGet (m : List (String × Value)) (k : String)
    (h : mapGet m k = none) :
    m.find? (fun kv => decide (kv.1 = k)) = none := by
  induction m with
  | nil => rfl
  | cons kv rest ih =>
    obtain ⟨a, b⟩ := kv
    by_cases hak : a = k
    · simp [mapGet, hak] at h
    · simp [mapGet, hak] at h
      simp [List.find?, hak, ih h]

end ClcExec
namespace ClcExec

theorem Decode_ok_iff (lib : Lib) (m : List (String × Value)) (p : Provisioner) :
    Decode lib m = Except.ok p ↔ decodeErrors lib m = [] ∧ p = decodeFields lib m := by
  unfold Decode
  cases he : decodeErrors lib m with
  | nil => simp [eq_comm]
  | cons e es => simp

theorem Decode_error_of_errors (lib : Lib) (m : List (String × Value))
    (h : decodeErrors lib m ≠ []) : Decode lib m = Except.error (decodeErrors lib m) := by
  unfold Decode
  cases he : decodeErrors lib m with
  | nil => exact absurd he h
  | cons e es => simp

theorem findField_of_mapGet (lib : Lib) (m : List (String × Value)) (tag : String) (v : Value)
    (h : mapGet m tag = some v) : findField lib m tag = some (tag, v) := by
  simp [findField, find_exact_of_mapGet m tag v h]

theorem getEnvStep_raw_same (env : Env) (c : ResourceConfig) (pair : String × String)
    (h : env pair.1 ≠ "") :
    mapGet (getEnvStep env c pair).Raw pair.2 = some (Value.str (env pair.1)) ∧
    mapGet (getEnvStep env c pair).Config pair.2 = some (Value.str (env pair.1)) := by
  simp [getEnvStep, h, mapGet_mapSet_self]

theorem getEnvStep_other (env : Env) (c : ResourceConfig) (pair : String × String)
    (k : String) (h : k ≠ pair.2) :
    mapGet (getEnvStep env c pair).Raw k = mapGet c.Raw k ∧
    mapGet (getEnvStep env c pair).Config k = mapGet c.Config k := by
  unfold getEnvStep
  split
  · exact ⟨mapGet_mapSet_ne _ _ _ _ h, mapGet_mapSet_ne _ _ _ _ h⟩
  · exact ⟨rfl, rfl⟩

theorem getEnvStep_raw_none (env : Env) (c : ResourceConfig) (pair : String × String)
    (k : String) (h : mapGet (getEnvStep env c pair).Raw k = none) :
    mapGet c.Raw k = none := by
  by_cases hk : k = pair.2
  · subst hk
    by_cases he : env pair.1 = ""
    · simpa [getEnvStep, he] using h
    · rw [(getEnvStep_raw_same env c pair he).1] at h
      cases h
  · rw [(getEnvStep_other env c pair k hk).1] at h
    exact h

theorem getEnv_raw_none (env : Env) (c : ResourceConfig) (k : String)
    (h : mapGet (getEnv env c).Raw k = none) : mapGet c.Raw k = none := by
  unfold getEnv envVars at h
  simp only [List.foldl] at h
  exact getEnvStep_raw_none _ _ _ _
    (getEnvStep_raw_none _ _ _ _ (getEnvStep_raw_none _ _ _ _ h))

theorem getEnv_unset (env : Env) (c : ResourceConfig) (hu : env "CLC_USERNAME" = "")
    (hp : env "CLC_PASSWORD" = "") (ha : env "CLC_ACCOUNT" = "") : getEnv env c = c := by
  simp [getEnv, envVars, getEnvStep, hu, hp, ha]

theorem getEnv_package (env : Env) (c : ResourceConfig) :
    mapGet (getEnv env c).Raw "package" = mapGet c.Raw "package" := by
  unfold getEnv envVars
  simp only [List.foldl]
  rw [(getEnvStep_other env _ _ "package" (by decide)).1,
    (getEnvStep_other env _ _ "package" (by decide)).1,
    (getEnvStep_other env _ _ "package" (by decide)).1]

theorem getEnv_sets (env : Env) (c : ResourceConfig) (pair : String × String)
    (hp : pair ∈ envVars) (he : env pair.1 ≠ "") :
    mapGet (getEnv env c).Raw pair.2 = some (Value.str (env pair.1)) ∧
    mapGet (getEnv env c).Config pair.2 = some (Value.str (env pair.1)) := by
  unfold getEnv
  simp only [envVars, List.mem_cons, List.mem_singleton, List.not_mem_nil, or_false] at hp
  simp only [envVars, List.foldl]
  rcases hp with rfl | rfl | rfl
  · have h1 := getEnvStep_raw_same env c ("CLC_USERNAME", "username") he
    have h2 := getEnvStep_other env (getEnvStep env c ("CLC_USERNAME", "username"))
      ("CLC_PASSWORD", "password") "username" (by decide)
    have h3 := getEnvStep_other env
      (getEnvStep env (getEnvStep env c ("CLC_USERNAME", "username"))
        ("CLC_PASSWORD", "password")) ("CLC_ACCOUNT", "account") "username" (by decide)
    exact ⟨by rw [h3.1, h2.1, h1.1], by rw [h3.2, h2.2, h1.2]⟩
  · have h2 := getEnvStep_raw_same env (getEnvStep env c ("CLC_USERNAME", "username"))
      ("CLC_PASSWORD", "password") he
    have h3 := getEnvStep_other env
      (getEnvStep env (getEnvStep env c ("CLC_USERNAME", "username"))
        ("CLC_PASSWORD", "password")) ("CLC_ACCOUNT", "account") "password" (by decide)
    exact ⟨by rw [h3.1, h2.1], by rw [h3.2, h2.2]⟩
  · exact getEnvStep_raw_same env _ ("CLC_ACCOUNT", "account") he

theorem requiredErrors_mem (raw : List (String × Value)) (k : String) (hk : k ∈ requiredKeys)
    (h : mapGet raw k = none) : ("Key not found: " ++ k) ∈ requiredErrors raw := by
  unfold requiredErrors
  apply List.mem_map.mpr
  refine ⟨k, ?_, rfl⟩
  simp [List.mem_filter, hk, flatHasKey, h]

end ClcExec
namespace ClcExec

theorem findField_key (lib : Lib) (m : List (String × Value)) (tag : String)
    (kv : String × Value) (h : findField lib m tag = some kv) :
    kv.1 = tag ∨ lib.EqualFold kv.1 tag = true := by
  unfold findField at h
  split at h
  · rename_i kv' hf
    injection h with h
    subst h
    have := List.find?_some hf
    left
    simpa using this
  · right
    have := List.find?_some h
    simpa using this

theorem findField_none (lib : Lib) (m : List (String × Value)) (tag : String)
    (h : ∀ k ∈ mapKeys m, k ≠ tag ∧ lib.EqualFold k tag = false) :
    findField lib m tag = none := by
  have h1 : m.find? (fun kv => decide (kv.1 = tag)) = none := by
    rw [List.find?_eq_none]
    intro kv hkv
    have := (h kv.1 (List.mem_map_of_mem Prod.fst hkv)).1
    simpa using this
  have h2 : m.find? (fun kv => lib.EqualFold kv.1 tag) = none := by
    rw [List.find?_eq_none]
    intro kv hkv
    have := (h kv.1 (List.mem_map_of_mem Prod.fst hkv)).2
    simp [this]
  simp [findField, h1, h2]

theorem mem_usedKeys (hits : List (Option (String × Value))) (k : String)
    (h : k ∈ usedKeys hits) : ∃ kv, some kv ∈ hits ∧ kv.1 = k := by
  unfold usedKeys at h
  rw [List.mem_filterMap] at h
  obtain ⟨o, ho, hk⟩ := h
  cases o with
  | none => simp at hk
  | some kv =>
    refine ⟨kv, ho, ?_⟩
    simpa using hk

theorem mem_unusedKeys (lib : Lib) (m : List (String × Value)) (k : String)
    (hk : k ∈ mapKeys m) (hf : ∀ tag ∈ fieldTags, k ≠ tag ∧ lib.EqualFold k tag = false) :
    k ∈ unusedKeys lib m := by
  unfold unusedKeys
  rw [List.mem_filter]
  refine ⟨hk, ?_⟩
  rw [decide_eq_true_eq]
  intro hu
  obtain ⟨kv, hmem, hkv⟩ := mem_usedKeys _ _ hu
  simp only [List.mem_cons, List.mem_singleton, List.not_mem_nil, or_false] at hmem
  have key : ∀ tag ∈ fieldTags, some kv = findField lib m tag → False := by
    intro tag ht he
    rcases findField_key lib m tag kv he.symm with h1 | h1
    · exact (hf tag ht).1 (hkv ▸ h1)
    · rw [hkv, (hf tag ht).2] at h1
      cases h1
  rcases hmem with h | h | h | h | h
  · exact key "username" (by decide) h
  · exact key "password" (by decide) h
  · exact key "account" (by decide) h
  · exact key "package" (by decide) h
  · exact key "parameters" (by decide) h

theorem decodeErrors_of_unused (lib : Lib) (m : List (String × Value)) (k : String)
    (hk : k ∈ unusedKeys lib m) : decodeErrors lib m ≠ [] := by
  unfold decodeErrors
  have hne : (unusedKeys lib m).isEmpty = false := by
    cases hu : unusedKeys lib m with
    | nil => rw [hu] at hk; cases hk
    | cons a l => rfl
  simp [hne]

end ClcExec
namespace ClcExec

theorem decodeStringField_hit (lib : Lib) (m : List (String × Value)) (tag : String)
    (v : Value) (s : String) (h : mapGet m tag = some v) (hs : decodeString v = some s) :
    decodeStringField tag (findField lib m tag) = (s, []) := by
  rw [findField_of_mapGet lib m tag v h]
  simp [decodeStringField, hs]

theorem mapGet_some_of_mem {β : Type} (m : List (String × β)) (k : String)
    (h : k ∈ mapKeys m) : ∃ v, mapGet m k = some v := by
  cases hg : mapGet m k with
  | none => exact absurd h ((mapGet_eq_none_iff m k).mp hg)
  | some v => exact ⟨v, rfl⟩

theorem decodeMapEntries_ok (name : String) (kvs : List (String × Value))
    (h : ∀ kv ∈ kvs, ∃ s, decodeString kv.2 = some s) :
    (decodeMapEntries name kvs).2 = [] ∧
    ∀ k, mapGet (decodeMapEntries name kvs).1 k = (mapGet kvs k).bind decodeString := by
  induction kvs with
  | nil => exact ⟨rfl, fun _ => rfl⟩
  | cons kv rest ih =>
    obtain ⟨a, b⟩ := kv
    obtain ⟨s, hs⟩ := h (a, b) (List.mem_cons_self _ _)
    have ih' := ih (fun kv hkv => h kv (List.mem_cons_of_mem _ hkv))
    have hs' : decodeString b = some s := hs
    refine ⟨?_, ?_⟩
    · simp [decodeMapEntries, hs', ih'.1]
    · intro k
      by_cases hak : a = k
      · subst hak
        simp [decodeMapEntries, hs', mapGet, mapGet_mapSet_self]
      · have hka : k ≠ a := fun e => hak e.symm
        simp [decodeMapEntries, hs', mapGet, hak, mapGet_mapSet_ne _ _ _ _ hka, ih'.2 k]

theorem unusedKeys_nil_of_exact (lib : Lib) (m : List (String × Value))
    (h : ∀ k ∈ mapKeys m, k ∈ fieldTags) : unusedKeys lib m = [] := by
  unfold unusedKeys
  rw [List.filter_eq_nil_iff]
  intro k hk
  obtain ⟨v, hv⟩ := mapGet_some_of_mem m k hk
  have hf := findField_of_mapGet lib m k v hv
  have hin : k ∈ usedKeys [findField lib m "username", findField lib m "password",
      findField lib m "account", findField lib m "package", findField lib m "parameters"] := by
    have ht := h k hk
    simp only [fieldTags, List.mem_cons, List.mem_singleton, List.not_mem_nil, or_false] at ht
    unfold usedKeys
    rw [List.mem_filterMap]
    refine ⟨some (k, v), ?_, rfl⟩
    rcases ht with rfl | rfl | rfl | rfl | rfl <;> simp [hf]
  simp [hin]

theorem mergedMap_none_raw (c : ResourceConfig) (k : String)
    (h : mapGet (mergedMap c) k = none) : mapGet c.Raw k = none := by
  unfold mergedMap at h
  cases hc : mapGet c.Config k with
  | some v => rw [mapGet_mapCopyInto_hit _ _ _ _ hc] at h; cases h
  | none =>
    rw [mapGet_mapCopyInto_miss _ _ _ hc] at h
    cases hr : mapGet c.Raw k with
    | some v => rw [mapGet_mapCopyInto_hit _ _ _ _ hr] at h; cases h
    | none => rfl

end ClcExec
namespace ClcExec

/-! ## decodeConfig, getEnv and Validate -/

/-- C4 (as stated, fails): the scenario configuration supplies username `u` together
with the other required fields and has no unrecognized key, yet with `CLC_USERNAME=foo`
in the environment `decodeConfig` returns a Configuration whose username is `foo`. -/
theorem decodeConfig_env_replaces_supplied_username :
    mapGet (mergedMap cfgFull) "username" = some (Value.str "u") ∧
    mapGet (mergedMap cfgFull) "password" = some (Value.str "p") ∧
    mapGet (mergedMap cfgFull) "account" = some (Value.str "a") ∧
    mapGet (mergedMap cfgFull) "package" = some (Value.str "PKG1") ∧
    (∀ k ∈ mapKeys (mergedMap cfgFull), k ∈ fieldTags) ∧
    decodeConfig sampleLib envFoo cfgFull =
      Except.ok { Username := "foo", Password := "p", Account := "a", Package := "PKG1",
                  PackageParameters := [("foo", "bar")] } ∧
    "foo" ≠ "u" := by
  refine ⟨rfl, rfl, rfl, rfl, ?_, rfl, by decide⟩
  decide

/-- C4 (amended): when none of `CLC_USERNAME`, `CLC_PASSWORD`, `CLC_ACCOUNT` is set, and
the merged map of the configuration (raw entries overlaid by typed entries) holds
string, int or bool values under username, password, account and package, holds under
parameters a map of such values or nothing, and has no other key, then `decodeConfig`
succeeds and returns exactly the supplied values (ints and bools in their string
form), the parameters mapping included. When parameters is absent the decoder looks
for a key that equals it up to case; `hfold` says that no required key does. -/
theorem decodeConfig_returns_supplied_values (lib : Lib) (env : Env) (c : ResourceConfig)
    (vu vp va vk : Value) (u pw a pkg : String) (params : List (String × Value))
    (hUenv : env "CLC_USERNAME" = "") (hPenv : env "CLC_PASSWORD" = "")
    (hAenv : env "CLC_ACCOUNT" = "")
    (hfold : ∀ k ∈ requiredKeys, lib.EqualFold k "parameters" = false)
    (hU : mapGet (mergedMap c) "username" = some vu) (hu : decodeString vu = some u)
    (hP : mapGet (mergedMap c) "password" = some vp) (hp : decodeString vp = some pw)
    (hA : mapGet (mergedMap c) "account" = some va) (ha : decodeString va = some a)
    (hK : mapGet (mergedMap c) "package" = some vk) (hk : decodeString vk = some pkg)
    (hX : mapGet (mergedMap c) "parameters" = some (Value.map params) ∨
      (mapGet (mergedMap c) "parameters" = none ∧ params = []))
    (hconv : ∀ kv ∈ params, ∃ s, decodeString kv.2 = some s)
    (hkeys : ∀ k ∈ mapKeys (mergedMap c), k ∈ fieldTags) :
    ∃ p, decodeConfig lib env c = Except.ok p ∧
      p.Username = u ∧ p.Password = pw ∧ p.Account = a ∧ p.Package = pkg ∧
      ∀ k, mapGet p.PackageParameters k = (mapGet params k).bind decodeString := by
  have hc : getEnv env c = c := getEnv_unset env c hUenv hPenv hAenv
  have e1 := decodeStringField_hit lib (mergedMap c) "username" vu u hU hu
  have e2 := decodeStringField_hit lib (mergedMap c) "password" vp pw hP hp
  have e3 := decodeStringField_hit lib (mergedMap c) "account" va a hA ha
  have e4 := decodeStringField_hit lib (mergedMap c) "package" vk pkg hK hk
  have e5 : (decodeMapField lib "parameters" (findField lib (mergedMap c) "parameters")).2 = []
      ∧ ∀ k, mapGet (decodeMapField lib "parameters"
          (findField lib (mergedMap c) "parameters")).1 k
        = (mapGet params k).bind decodeString := by
    rcases hX with hX | ⟨hX, hnil⟩
    · rw [findField_of_mapGet lib _ _ _ hX]
      exact decodeMapEntries_ok "parameters" params hconv
    · have hnone : findField lib (mergedMap c) "parameters" = none := by
        apply findField_none
        intro k hkm
        have hne : k ≠ "parameters" := by
          intro e
          rw [e] at hkm
          exact (mapGet_eq_none_iff _ _).mp hX hkm
        refine ⟨hne, hfold k ?_⟩
        have := hkeys k hkm
        simp only [fieldTags, List.mem_cons, List.mem_singleton, List.not_mem_nil,
          or_false] at this
        simp only [requiredKeys, List.mem_cons, List.mem_singleton, List.not_mem_nil,
          or_false]
        rcases this with h | h | h | h | h
        · exact Or.inl h
        · exact Or.inr (Or.inl h)
        · exact Or.inr (Or.inr (Or.inl h))
        · exact Or.inr (Or.inr (Or.inr h))
        · exact absurd h hne
      subst hnil
      rw [hnone]
      exact ⟨rfl, fun _ => rfl⟩
  have herr : decodeErrors lib (mergedMap c) = [] := by
    unfold decodeErrors
    rw [e1, e2, e3, e4, e5.1, unusedKeys_nil_of_exact lib _ hkeys]
    rfl
  refine ⟨decodeFields lib (mergedMap c), ?_, ?_, ?_, ?_, ?_, ?_⟩
  · unfold decodeConfig
    rw [hc]
    exact (Decode_ok_iff lib _ _).mpr ⟨herr, rfl⟩
  · simp [decodeFields, e1]
  · simp [decodeFields, e2]
  · simp [decodeFields, e3]
  · simp [decodeFields, e4]
  · exact e5.2

/-- C4 (amended), at the scenario configuration with nothing set in the environment. -/
theorem decodeConfig_returns_supplied_values_witness :
    ∃ p, decodeConfig sampleLib noEnv cfgFull = Except.ok p ∧
      p.Username = "u" ∧ p.Password = "p" ∧ p.Account = "a" ∧ p.Package = "PKG1" ∧
      ∀ k, mapGet p.PackageParameters k
        = (mapGet [("foo", Value.str "bar")] k).bind decodeString :=
  decodeConfig_returns_supplied_values sampleLib noEnv cfgFull
    (Value.str "u") (Value.str "p") (Value.str "a") (Value.str "PKG1") "u" "p" "a" "PKG1"
    [("foo", Value.str "bar")] rfl rfl rfl (by decide) rfl rfl rfl rfl rfl rfl rfl rfl
    (Or.inl rfl) (by intro kv hkv; simp at hkv; subst hkv; exact ⟨"bar", rfl⟩) (by decide)

/-- C5 (as stated, fails): the merged map has the key `Username`, which is none of
username, password, account, package, parameters, and `decodeConfig` succeeds: the
decoder fills the username field from it, matching keys without regard to case. -/
theorem decodeConfig_accepts_case_variant_key :
    "Username" ∈ mapKeys (mergedMap (getEnv noEnv cfgCapital)) ∧
    "Username" ∉ fieldTags ∧
    decodeConfig sampleLib noEnv cfgCapital =
      Except.ok { Username := "u", Password := "p", Account := "a", Package := "PKG1",
                  PackageParameters := [] } := by
  refine ⟨by decide, by decide, rfl⟩

/-- C5 (amended): if the merged map (raw entries overlaid by typed entries, after the
environment overrides) has a key that equals none of username, password, account,
package and parameters, not even up to case (`strings.EqualFold`), then `decodeConfig`
returns an error and no Configuration. -/
theorem decodeConfig_rejects_unmatched_key (lib : Lib) (env : Env) (c : ResourceConfig)
    (k : String) (hk : k ∈ mapKeys (mergedMap (getEnv env c)))
    (hfold : ∀ tag ∈ fieldTags, k ≠ tag ∧ lib.EqualFold k tag = false) :
    ∃ e, decodeConfig lib env c = Except.error e :=
  ⟨_, Decode_error_of_errors lib _
    (decodeErrors_of_unused lib _ k (mem_unusedKeys lib _ k hk hfold))⟩

/-- C5 (amended), at a configuration with the extra key `region`. -/
theorem decodeConfig_rejects_unmatched_key_witness :
    ∃ e, decodeConfig sampleLib noEnv cfgExtra = Except.error e :=
  decodeConfig_rejects_unmatched_key sampleLib noEnv cfgExtra "region" (by decide)
    (by decide)

/-- C6 (as stated, fails): for the empty configuration and an environment with nothing
set, all four required fields are absent from the merged map, and `decodeConfig`
returns a Configuration, with all four fields empty, instead of an error. -/
theorem decodeConfig_accepts_empty_config :
    mapKeys (mergedMap (getEnv noEnv cfgEmpty)) = [] ∧
    decodeConfig sampleLib noEnv cfgEmpty =
      Except.ok { Username := "", Password := "", Account := "", Package := "",
                  PackageParameters := [] } :=
  ⟨rfl, rfl⟩

/-- C6 (amended): `decodeConfig` does not check that the required fields are present.
If, after the environment overrides are merged, no key of the merged map equals a
required field, not even up to case, the decoder leaves that field empty and collects
no error for it, and every Configuration `decodeConfig` returns has that field
empty. -/
theorem decodeConfig_absent_field_left_empty (lib : Lib) (env : Env) (c : ResourceConfig)
    (tag : String) (ht : tag ∈ requiredKeys)
    (habs : ∀ k ∈ mapKeys (mergedMap (getEnv env c)),
      k ≠ tag ∧ lib.EqualFold k tag = false) :
    decodeStringField tag (findField lib (mergedMap (getEnv env c)) tag) = ("", []) ∧
    ∀ p, decodeConfig lib env c = Except.ok p → stringField tag p = "" := by
  have hnone := findField_none lib _ tag habs
  refine ⟨by rw [hnone]; rfl, ?_⟩
  intro p hok
  have hp := ((Decode_ok_iff lib _ _).mp hok).2
  simp only [requiredKeys, List.mem_cons, List.mem_singleton, List.not_mem_nil,
    or_false] at ht
  rcases ht with rfl | rfl | rfl | rfl <;>
    simp [hp, stringField, decodeFields, hnone, decodeStringField]

/-- C6 (amended), at a configuration without a username and nothing set in the
environment: the decode succeeds and the username is empty. -/
theorem decodeConfig_absent_field_left_empty_witness :
    decodeConfig sampleLib noEnv cfgNoUser =
      Except.ok { Username := "", Password := "p", Account := "a", Package := "PKG1",
                  PackageParameters := [] } ∧
    decodeStringField "username"
      (findField sampleLib (mergedMap (getEnv noEnv cfgNoUser)) "username") = ("", []) ∧
    ∀ p, decodeConfig sampleLib noEnv cfgNoUser = Except.ok p →
      stringField "username" p = "" :=
  ⟨rfl, decodeConfig_absent_field_left_empty sampleLib noEnv cfgNoUser "username"
    (by decide) (by decide)⟩

/-- C7: for each pair of `envVars` (`CLC_USERNAME`, `CLC_PASSWORD`, `CLC_ACCOUNT` with
username, password, account) and every non-empty value `v` of the variable, after
`getEnv` both the raw and the typed map hold `v` under the key, and every
Configuration `decodeConfig` returns has `v` in that field. This holds whether or not
the configuration had an entry for the key, so in particular when it had none. -/
theorem getEnv_value_reaches_configuration (lib : Lib) (env : Env) (c : ResourceConfig)
    (pair : String × String) (v : String) (hpair : pair ∈ envVars) (hv : v ≠ "")
    (he : env pair.1 = v) :
    mapGet (getEnv env c).Raw pair.2 = some (Value.str v) ∧
    mapGet (getEnv env c).Config pair.2 = some (Value.str v) ∧
    ∀ p, decodeConfig lib env c = Except.ok p → stringField pair.2 p = v := by
  have hne : env pair.1 ≠ "" := by rw [he]; exact hv
  have hs := getEnv_sets env c pair hpair hne
  rw [he] at hs
  refine ⟨hs.1, hs.2, ?_⟩
  intro p hok
  have hp := ((Decode_ok_iff lib _ _).mp hok).2
  have hm : mapGet (mergedMap (getEnv env c)) pair.2 = some (Value.str v) :=
    mapGet_mapCopyInto_hit _ _ _ _ hs.2
  have hf := decodeStringField_hit lib _ pair.2 (Value.str v) v hm rfl
  simp only [envVars, List.mem_cons, List.mem_singleton, List.not_mem_nil, or_false] at hpair
  rcases hpair with rfl | rfl | rfl <;>
    simp [hp, stringField, decodeFields, hf]

/-- C7, at `CLC_USERNAME=foo` and a configuration without a username: the maps hold
`foo`, the decode succeeds, and the username is `foo`. -/
theorem getEnv_value_reaches_configuration_witness :
    (mapGet cfgNoUser.Raw "username" = none ∧ mapGet cfgNoUser.Config "username" = none) ∧
    decodeConfig sampleLib envFoo cfgNoUser =
      Except.ok { Username := "foo", Password := "p", Account := "a", Package := "PKG1",
                  PackageParameters := [] } ∧
    (mapGet (getEnv envFoo cfgNoUser).Raw "username" = some (Value.str "foo") ∧
      mapGet (getEnv envFoo cfgNoUser).Config "username" = some (Value.str "foo") ∧
      ∀ p, decodeConfig sampleLib envFoo cfgNoUser = Except.ok p →
        stringField "username" p = "foo") :=
  ⟨⟨rfl, rfl⟩, rfl,
    getEnv_value_reaches_configuration sampleLib envFoo cfgNoUser
      ("CLC_USERNAME", "username") "foo" (by decide) (by decide) rfl⟩

/-- C8: if, after the environment overrides, one of username, password, account and
package is missing, from the raw configuration (the map the validator inspects) or
from the merged map of raw and typed entries, `Validate` returns at least one error,
the `Key not found` error for that key. A missing package stays missing whatever the
environment holds, so `Validate` then reports it for every environment. -/
theorem Validate_reports_missing_required_key (lib : Lib) (env : Env) (c : ResourceConfig) :
    (∀ k ∈ requiredKeys,
      (mapGet (getEnv env c).Raw k = none ∨ mapGet (mergedMap (getEnv env c)) k = none) →
      ("Key not found: " ++ k) ∈ (Validate lib env c).2 ∧ 0 < (Validate lib env c).2.length) ∧
    (mapGet c.Raw "package" = none →
      "Key not found: package" ∈ (Validate lib env c).2 ∧
        0 < (Validate lib env c).2.length) := by
  have main : ∀ k ∈ requiredKeys, mapGet (getEnv env c).Raw k = none →
      ("Key not found: " ++ k) ∈ (Validate lib env c).2 ∧
        0 < (Validate lib env c).2.length := by
    intro k hk hmiss
    have h0 : mapGet c.Raw k = none := getEnv_raw_none env c k hmiss
    have hfirst : ("Key not found: " ++ k) ∈ (validatorValidate lib c).2 :=
      List.mem_append_left _ (requiredErrors_mem c.Raw k hk h0)
    have hsecond : ("Key not found: " ++ k) ∈ (validatorValidate lib (getEnv env c)).2 :=
      List.mem_append_left _ (requiredErrors_mem _ k hk hmiss)
    have hcond : (validatorValidate lib c).1.length > 0 ∨
        (validatorValidate lib c).2.length > 0 :=
      Or.inr (List.length_pos_of_mem hfirst)
    have hV : Validate lib env c = validatorValidate lib (getEnv env c) := by
      unfold Validate
      rw [if_pos hcond]
    rw [hV]
    exact ⟨hsecond, List.length_pos_of_mem hsecond⟩
  refine ⟨?_, ?_⟩
  · intro k hk hmiss
    rcases hmiss with h | h
    · exact main k hk h
    · exact main k hk (mergedMap_none_raw _ k h)
  · intro hpk
    exact main "package" (by decide) (by rw [getEnv_package]; exact hpk)

/-- C8, with none of the environment variables set and no package in the
configuration. -/
theorem Validate_reports_missing_required_key_witness :
    (mapGet (getEnv noEnv cfgNoPackage).Raw "package" = none ∧
      mapGet (mergedMap (getEnv noEnv cfgNoPackage)) "package" = none) ∧
    "Key not found: package" ∈ (Validate sampleLib noEnv cfgNoPackage).2 ∧
    0 < (Validate sampleLib noEnv cfgNoPackage).2.length :=
  ⟨⟨rfl, rfl⟩, (Validate_reports_missing_required_key sampleLib noEnv cfgNoPackage).1
    "package" (by decide) (Or.inl rfl)⟩

end ClcExec
namespace ClcExec

/-! ## Apply and waitStatus -/

theorem mentions_second (a b c d : String) : Mentions (a ++ b ++ c ++ d) b := by
  unfold Mentions
  refine ⟨a.data, c.data ++ d.data, ?_⟩
  simp [String.data_append]

theorem mentions_end (a b : String) : Mentions (a ++ b) b := by
  unfold Mentions
  refine ⟨a.data, [], ?_⟩
  simp [String.data_append]

theorem executingMsg_ne_successMsg (pkg sid pkg' sid' : String) :
    executingMsg pkg sid ≠ successMsg pkg' sid' := by
  intro h
  have h1 := congrArg (fun x => x.data.head?) h
  simp [executingMsg, successMsg, String.data_append] at h1

/-- C1: when the decode, the client construction and the authentication succeed,
`ExecutePackage` returns no error and a first entry that is queued and yields the
status ID `st`, and the poll delivers a terminal status that is not failed, `Apply`
returns no error; the last string given to the output is `Package P successfully
executed on S`, for the package `P` and the target `S`, and it mentions both. -/
theorem Apply_success (lib : Lib) (sdk : Sdk) (env : Env) (s : InstanceState)
    (c : ResourceConfig) (p : Provisioner) (config : ApiConfig) (r : PackageResponse)
    (rest : List PackageResponse) (st : String) (status : StatusResponse)
    (hdec : decodeConfig lib env c = Except.ok p)
    (hcfg : sdk.NewConfig p.Username p.Password p.Account "" = Except.ok config)
    (hauth : sdk.Authenticate config = none)
    (hexec : sdk.ExecutePackage config { ID := p.Package, Params := p.PackageParameters } s.ID
      = (r :: rest, none))
    (hq : r.IsQueued = true) (hst : r.statusLink = some st)
    (hpoll : sdk.Poll config st = Except.ok status) (hnf : status.Failed = false) :
    (Apply lib sdk env s c).result = Outcome.ok ∧
    (Apply lib sdk env s c).output.getLast?
      = some ("Package " ++ p.Package ++ " successfully executed on " ++ s.ID) ∧
    ("Package " ++ p.Package ++ " successfully executed on " ++ s.ID)
      ∈ (Apply lib sdk env s c).output ∧
    Mentions ("Package " ++ p.Package ++ " successfully executed on " ++ s.ID) p.Package ∧
    Mentions ("Package " ++ p.Package ++ " successfully executed on " ++ s.ID) s.ID := by
  have hrun : Apply lib sdk env s c =
      { result := Outcome.ok,
        output := [executingMsg p.Package s.ID, successMsg p.Package s.ID],
        calls := [Call.NewConfig, Call.Authenticate, Call.ExecutePackage, Call.Poll] } := by
    simp [Apply, hdec, hcfg, hauth, hexec, hq, GetStatusID, hst, waitStatus, hpoll, hnf]
  rw [hrun]
  refine ⟨rfl, rfl, ?_, ?_, ?_⟩
  · simp [successMsg]
  · exact mentions_second _ _ _ _
  · exact mentions_end _ _

/-- C1, at the scenario: configuration with package `PKG1` and one parameter, target
`srv-1`, status ID `job-42`, poll delivering `succeeded`. -/
theorem Apply_success_witness :
    (Apply sampleLib sdkOk noEnv srv1 cfgFull).result = Outcome.ok ∧
    (Apply sampleLib sdkOk noEnv srv1 cfgFull).output.getLast?
      = some ("Package " ++ "PKG1" ++ " successfully executed on " ++ "srv-1") ∧
    ("Package " ++ "PKG1" ++ " successfully executed on " ++ "srv-1")
      ∈ (Apply sampleLib sdkOk noEnv srv1 cfgFull).output ∧
    Mentions ("Package " ++ "PKG1" ++ " successfully executed on " ++ "srv-1") "PKG1" ∧
    Mentions ("Package " ++ "PKG1" ++ " successfully executed on " ++ "srv-1") "srv-1" :=
  Apply_success sampleLib sdkOk noEnv srv1 cfgFull
    { Username := "u", Password := "p", Account := "a", Package := "PKG1",
      PackageParameters := [("foo", "bar")] }
    { User := "u", Password := "p", Alias := "a", BaseURL := "" }
    { IsQueued := true, statusLink := some "job-42" } [] "job-42"
    { Status := "succeeded", Failed := false } rfl rfl rfl rfl rfl rfl rfl rfl

/-- C2: when the run reaches the poll of status ID `st` and the poll delivers a
terminal status that reports failure, `waitStatus` and with it `Apply` return the
error `unsuccessful job st failed with status: ` followed by the status value; the
message mentions both, and the success message is not among the strings given to the
output. -/
theorem Apply_failed_job (lib : Lib) (sdk : Sdk) (env : Env) (s : InstanceState)
    (c : ResourceConfig) (p : Provisioner) (config : ApiConfig) (r : PackageResponse)
    (rest : List PackageResponse) (st : String) (status : StatusResponse)
    (hdec : decodeConfig lib env c = Except.ok p)
    (hcfg : sdk.NewConfig p.Username p.Password p.Account "" = Except.ok config)
    (hauth : sdk.Authenticate config = none)
    (hexec : sdk.ExecutePackage config { ID := p.Package, Params := p.PackageParameters } s.ID
      = (r :: rest, none))
    (hq : r.IsQueued = true) (hst : r.statusLink = some st)
    (hpoll : sdk.Poll config st = Except.ok status) (hf : status.Failed = true) :
    waitStatus sdk config st = some (GoError.errorf
      ("unsuccessful job " ++ st ++ " failed with status: " ++ status.Status)) ∧
    (Apply lib sdk env s c).result = Outcome.err (GoError.errorf
      ("unsuccessful job " ++ st ++ " failed with status: " ++ status.Status)) ∧
    Mentions ("unsuccessful job " ++ st ++ " failed with status: " ++ status.Status) st ∧
    Mentions ("unsuccessful job " ++ st ++ " failed with status: " ++ status.Status)
      status.Status ∧
    (∀ pkg sid, successMsg pkg sid ∉ (Apply lib sdk env s c).output) := by
  have hw : waitStatus sdk config st = some (GoError.errorf
      ("unsuccessful job " ++ st ++ " failed with status: " ++ status.Status)) := by
    simp [waitStatus, hpoll, hf, failedJobMsg]
  have hrun : Apply lib sdk env s c =
      { result := Outcome.err (GoError.errorf
          ("unsuccessful job " ++ st ++ " failed with status: " ++ status.Status)),
        output := [executingMsg p.Package s.ID],
        calls := [Call.NewConfig, Call.Authenticate, Call.ExecutePackage, Call.Poll] } := by
    simp [Apply, hdec, hcfg, hauth, hexec, hq, GetStatusID, hst, hw]
  rw [hrun]
  refine ⟨hw, rfl, mentions_second _ _ _ _, mentions_end _ _, ?_⟩
  intro pkg sid hmem
  simp only [List.mem_singleton] at hmem
  exact executingMsg_ne_successMsg _ _ _ _ hmem.symm

/-- C2, at the scenario with a poll that delivers the status `failed`. -/
theorem Apply_failed_job_witness :
    waitStatus sdkJobFailed { User := "u", Password := "p", Alias := "a", BaseURL := "" }
      "job-42" = some (GoError.errorf
        ("unsuccessful job " ++ "job-42" ++ " failed with status: " ++ "failed")) ∧
    (Apply sampleLib sdkJobFailed noEnv srv1 cfgFull).result = Outcome.err (GoError.errorf
      ("unsuccessful job " ++ "job-42" ++ " failed with status: " ++ "failed")) ∧
    Mentions ("unsuccessful job " ++ "job-42" ++ " failed with status: " ++ "failed")
      "job-42" ∧
    Mentions ("unsuccessful job " ++ "job-42" ++ " failed with status: " ++ "failed")
      "failed" ∧
    (∀ pkg sid, successMsg pkg sid ∉ (Apply sampleLib sdkJobFailed noEnv srv1 cfgFull).output) :=
  Apply_failed_job sampleLib sdkJobFailed noEnv srv1 cfgFull
    { Username := "u", Password := "p", Account := "a", Package := "PKG1",
      PackageParameters := [("foo", "bar")] }
    { User := "u", Password := "p", Alias := "a", BaseURL := "" }
    { IsQueued := true, statusLink := some "job-42" } [] "job-42"
    { Status := "failed", Failed := true } rfl rfl rfl rfl rfl rfl rfl rfl

/-- C3: `Apply` fails fast. If `decodeConfig` fails, `Apply` returns that error and
makes no SDK call, so the client is never constructed. If `Authenticate` returns an
error, `Apply` returns an error whose message wraps it and `ExecutePackage` is not
called. If the first entry of the answer of `ExecutePackage` is not queued, `Apply`
returns an error and the status is not polled. -/
theorem Apply_fail_fast (lib : Lib) (sdk : Sdk) (env : Env) (s : InstanceState)
    (c : ResourceConfig) :
    (∀ e, decodeConfig lib env c = Except.error e →
      (Apply lib sdk env s c).result = Outcome.err (GoError.decode e) ∧
      Call.NewConfig ∉ (Apply lib sdk env s c).calls ∧
      (Apply lib sdk env s c).calls = []) ∧
    (∀ p config e, decodeConfig lib env c = Except.ok p →
      sdk.NewConfig p.Username p.Password p.Account "" = Except.ok config →
      sdk.Authenticate config = some e →
      (Apply lib sdk env s c).result = Outcome.err (GoError.errorf
        ("Failed authenticated with provided credentials: " ++ e)) ∧
      Mentions ("Failed authenticated with provided credentials: " ++ e) e ∧
      Call.ExecutePackage ∉ (Apply lib sdk env s c).calls) ∧
    (∀ p config r rest err, decodeConfig lib env c = Except.ok p →
      sdk.NewConfig p.Username p.Password p.Account "" = Except.ok config →
      sdk.Authenticate config = none →
      sdk.ExecutePackage config { ID := p.Package, Params := p.PackageParameters } s.ID
        = (r :: rest, err) →
      r.IsQueued = false →
      (∃ msg, (Apply lib sdk env s c).result = Outcome.err (GoError.errorf msg)) ∧
      Call.Poll ∉ (Apply lib sdk env s c).calls) := by
  refine ⟨?_, ?_, ?_⟩
  · intro e hdec
    simp [Apply, hdec]
  · intro p config e hdec hcfg hauth
    refine ⟨?_, mentions_end _ _, ?_⟩
    · simp [Apply, hdec, hcfg, hauth]
    · simp [Apply, hdec, hcfg, hauth]
  · intro p config r rest err hdec hcfg hauth hexec hq
    cases err with
    | some e => simp [Apply, hdec, hcfg, hauth, hexec]
    | none => simp [Apply, hdec, hcfg, hauth, hexec, hq]

/-- C3, at a configuration with an unknown key, at a client whose authentication
fails, and at a client whose package is not queued. -/
theorem Apply_fail_fast_witness :
    ((Apply sampleLib sdkOk noEnv srv1 cfgExtra).result
        = Outcome.err (GoError.decode [DecodeIssue.invalidKeys ["region"]]) ∧
      Call.NewConfig ∉ (Apply sampleLib sdkOk noEnv srv1 cfgExtra).calls ∧
      (Apply sampleLib sdkOk noEnv srv1 cfgExtra).calls = []) ∧
    ((Apply sampleLib sdkAuthFails noEnv srv1 cfgFull).result = Outcome.err (GoError.errorf
        ("Failed authenticated with provided credentials: " ++ "401 Unauthorized")) ∧
      Mentions ("Failed authenticated with provided credentials: " ++ "401 Unauthorized")
        "401 Unauthorized" ∧
      Call.ExecutePackage ∉ (Apply sampleLib sdkAuthFails noEnv srv1 cfgFull).calls) ∧
    ((∃ msg, (Apply sampleLib sdkNotQueued noEnv srv1 cfgFull).result
        = Outcome.err (GoError.errorf msg)) ∧
      Call.Poll ∉ (Apply sampleLib sdkNotQueued noEnv srv1 cfgFull).calls) :=
  ⟨(Apply_fail_fast sampleLib sdkOk noEnv srv1 cfgExtra).1
      [DecodeIssue.invalidKeys ["region"]] rfl,
    (Apply_fail_fast sampleLib sdkAuthFails noEnv srv1 cfgFull).2.1
      { Username := "u", Password := "p", Account := "a", Package := "PKG1",
        PackageParameters := [("foo", "bar")] }
      { User := "u", Password := "p", Alias := "a", BaseURL := "" }
      "401 Unauthorized" rfl rfl rfl,
    (Apply_fail_fast sampleLib sdkNotQueued noEnv srv1 cfgFull).2.2
      { Username := "u", Password := "p", Account := "a", Package := "PKG1",
        PackageParameters := [("foo", "bar")] }
      { User := "u", Password := "p", Alias := "a", BaseURL := "" }
      { IsQueued := false, statusLink := none } [] none rfl rfl rfl rfl rfl⟩

/-- C9: when the run reaches the poll of status ID `st` and registering the poll
returns an error, `waitStatus` returns nil, and `Apply` returns no error with
`Package P successfully executed on S` as the last string given to the output,
although no terminal status was received. -/
theorem Apply_poll_registration_error (lib : Lib) (sdk : Sdk) (env : Env) (s : InstanceState)
    (c : ResourceConfig) (p : Provisioner) (config : ApiConfig) (r : PackageResponse)
    (rest : List PackageResponse) (st : String) (e : String)
    (hdec : decodeConfig lib env c = Except.ok p)
    (hcfg : sdk.NewConfig p.Username p.Password p.Account "" = Except.ok config)
    (hauth : sdk.Authenticate config = none)
    (hexec : sdk.ExecutePackage config { ID := p.Package, Params := p.PackageParameters } s.ID
      = (r :: rest, none))
    (hq : r.IsQueued = true) (hst : r.statusLink = some st)
    (hpoll : sdk.Poll config st = Except.error e) :
    waitStatus sdk config st = none ∧
    (Apply lib sdk env s c).result = Outcome.ok ∧
    (Apply lib sdk env s c).output.getLast?
      = some ("Package " ++ p.Package ++ " successfully executed on " ++ s.ID) := by
  have hw : waitStatus sdk config st = none := by
    simp [waitStatus, hpoll]
  have hrun : Apply lib sdk env s c =
      { result := Outcome.ok,
        output := [executingMsg p.Package s.ID, successMsg p.Package s.ID],
        calls := [Call.NewConfig, Call.Authenticate, Call.ExecutePackage, Call.Poll] } := by
    simp [Apply, hdec, hcfg, hauth, hexec, hq, GetStatusID, hst, hw]
  rw [hrun]
  exact ⟨hw, rfl, rfl⟩

/-- C9, at the scenario with a client whose poll registration fails. -/
theorem Apply_poll_registration_error_witness :
    waitStatus sdkPollError { User := "u", Password := "p", Alias := "a", BaseURL := "" }
      "job-42" = none ∧
    (Apply sampleLib sdkPollError noEnv srv1 cfgFull).result = Outcome.ok ∧
    (Apply sampleLib sdkPollError noEnv srv1 cfgFull).output.getLast?
      = some ("Package " ++ "PKG1" ++ " successfully executed on " ++ "srv-1") :=
  Apply_poll_registration_error sampleLib sdkPollError noEnv srv1 cfgFull
    { Username := "u", Password := "p", Account := "a", Package := "PKG1",
      PackageParameters := [("foo", "bar")] }
    { User := "u", Password := "p", Alias := "a", BaseURL := "" }
    { IsQueued := true, statusLink := some "job-42" } [] "job-42"
    "status service unavailable" rfl rfl rfl rfl rfl rfl rfl

/-- C10 (the code differs): at the scenario with a client whose `ExecutePackage`
answers with an empty slice and a nil error, `Apply` does not return an error: the
test `resp[0].IsQueued` indexes the empty slice and the run ends in the run-time
failure, after the three SDK calls. With an empty slice and an error, the error test
comes first and `Apply` returns an error. -/
theorem Apply_empty_response_index_out_of_range :
    Apply sampleLib sdkEmptyResponse noEnv srv1 cfgFull =
      { result := Outcome.indexOutOfRange,
        output := ["Executing package 'PKG1' on server 'srv-1'"],
        calls := [Call.NewConfig, Call.Authenticate, Call.ExecutePackage] } ∧
    (Apply sampleLib sdkEmptyResponseError noEnv srv1 cfgFull).result =
      Outcome.err (GoError.errorf "Failed executing package: 500 Internal Server Error") :=
  ⟨rfl, rfl⟩

end ClcExec
